import Mathlib

/-!
# Verification of the style-direction pipeline and the Slider component

Shallow embedding of two source modules of this repository:

* the `ensureDirection` style-flipping utility (with its two regexes
  `reTranslate` and `reSkew`, and the dev-mode `didFlip` marker), and
* the `Slider` component's value/percent state updates
  (`componentWillMount`, `setValue`, `setPercent`, `alignValue`,
  `onHandleKeyDown`, `dragX`, `percentToValue`) and its document-level
  drag listener registration.

Style descriptors are association lists of string keys to values; JS
objects preserve insertion order and assignment to an existing key keeps
its position, which `objSet` mirrors.  Slider numbers are modelled as
rationals; `Math.round` and `toFixed(5)` are modelled by their ECMAScript
definitions (round half towards positive infinity).
-/

/-- A JS style value: a number or a string. -/
inductive Val where
  | num (q : ℚ)
  | str (s : String)
deriving DecidableEq

/-- A style descriptor: ordered key/value pairs, as a JS object literal. -/
abbrev Style := List (String × Val)

/-- JS object property assignment `obj[k] = v`: an existing key keeps its
position and gets the new value, a new key is appended. -/
def objSet (st : Style) (k : String) (v : Val) : Style :=
  match st with
  | [] => [(k, v)]
  | (k1, v1) :: rest => if k1 = k then (k, v) :: rest else (k1, v1) :: objSet rest k v

/-- JS property read `obj[k]`, `undefined` as `none`. -/
def lookupVal : Style → String → Option Val
  | [], _ => none
  | (k, v) :: rest, key => if k = key then some v else lookupVal rest key

/-- JS truthiness of a property read: `undefined`, `0` and `""` are falsy. -/
def truthy : Option Val → Bool
  | none => false
  | some (.num q) => decide (q ≠ 0)
  | some (.str s) => decide (s ≠ "")

/-- Fold the entries of `b` into `a` by property assignment. -/
def mergeInto (acc : Style) : Style → Style
  | [] => acc
  | (k, v) :: rest => mergeInto (objSet acc k v) rest

/-- Modelled from the spec: the repository's style `merge` helper lives in
`utils/immutability-helper`, whose source is not part of this development;
per the spec's Style Merge contract it combines descriptors key-by-key with
later descriptors taking precedence. -/
def merge2 (a b : Style) : Style := mergeInto a b

/-! ## The `reTranslate` / `reSkew` regular expressions

`reTranslate = /((^|\s)translate(3d|X)?\()(\-?[\d]+)/` and
`reSkew = /((^|\s)skew(x|y)?\()\s*(\-?[\d]+)(deg|rad|grad)(,\s*(\-?[\d]+)(deg|rad|grad))?/`
are fixed, so their matching is implemented directly: leftmost match wins,
alternatives are tried in written order, `?` prefers presence.  ASCII
whitespace stands in for `\s`. -/

/-- ASCII part of the JS `\s` character class. -/
def jsSpace (c : Char) : Bool :=
  c = ' ' || c = '\t' || c = '\n' || c = '\r' || c = '\x0b' || c = '\x0c'

/-- Match a literal character list, returning the remainder. -/
def matchLit : List Char → List Char → Option (List Char)
  | [], rest => some rest
  | _, [] => none
  | p :: ps, c :: cs => if c = p then matchLit ps cs else none

/-- Greedily take decimal digits (the `[\d]+` body). -/
def takeDigits : List Char → (List Char × List Char)
  | [] => ([], [])
  | c :: cs =>
    if c.isDigit then
      let r := takeDigits cs
      (c :: r.1, r.2)
    else ([], c :: cs)

/-- Greedily take `\s*`. -/
def takeSpaces : List Char → (List Char × List Char)
  | [] => ([], [])
  | c :: cs =>
    if jsSpace c then
      let r := takeSpaces cs
      (c :: r.1, r.2)
    else ([], c :: cs)

/-- Match `\-?[\d]+`, returning the matched text and the remainder. -/
def matchNum (l : List Char) : Option (List Char × List Char) :=
  match l with
  | [] => none
  | c :: cs =>
    if c = '-' then
      match takeDigits cs with
      | ([], _) => none
      | (d, r) => some ('-' :: d, r)
    else
      match takeDigits (c :: cs) with
      | ([], _) => none
      | (d, r) => some (d, r)

/-- Match `(deg|rad|grad)` in the regex's alternative order. -/
def matchUnit (l : List Char) : Option (List Char × List Char) :=
  match matchLit "deg".data l with
  | some r => some ("deg".data, r)
  | none =>
    match matchLit "rad".data l with
    | some r => some ("rad".data, r)
    | none =>
      match matchLit "grad".data l with
      | some r => some ("grad".data, r)
      | none => none

/-- The capture data of a `reTranslate` match used by the source:
`m0 = matches[0]`, `g1 = matches[1]`, `g4 = matches[4]`. -/
structure TMatch where
  m0 : List Char
  g1 : List Char
  g4 : List Char
deriving DecidableEq

/-- Try the `translate(3d|X)?\(` tail of `reTranslate` after the `(^|\s)`
prefix `g2`, alternatives `3d`, `X`, absent in order. -/
def tryTranslateTail (g2 : List Char) (l : List Char) : Option TMatch :=
  match matchLit "translate".data l with
  | none => none
  | some r1 =>
    let tryG3 := fun (g3 : List Char) =>
      match matchLit (g3 ++ ['(']) r1 with
      | none => none
      | some r2 =>
        match matchNum r2 with
        | none => none
        | some (numTxt, _) =>
          let g1 := g2 ++ "translate".data ++ g3 ++ ['(']
          some { m0 := g1 ++ numTxt, g1 := g1, g4 := numTxt }
    match tryG3 ['3', 'd'] with
    | some m => some m
    | none =>
      match tryG3 ['X'] with
      | some m => some m
      | none => tryG3 []

/-- Leftmost `reTranslate` match: at each position try `^` (only at the
start), then a `\s` character, before the `translate...` tail. -/
def findTranslate : List Char → Bool → Option TMatch
  | l, atStart =>
    let here :=
      match (if atStart then tryTranslateTail [] l else none) with
      | some m => some m
      | none =>
        match l with
        | c :: cs => if jsSpace c then tryTranslateTail [c] cs else none
        | [] => none
    match here with
    | some m => some m
    | none =>
      match l with
      | [] => none
      | _ :: cs => findTranslate cs false

/-- The capture data of a `reSkew` match used by the source:
`matches[0..1]`, `matches[4..8]` (optional groups as `Option`). -/
structure SMatch where
  m0 : List Char
  g1 : List Char
  g4 : List Char
  g5 : List Char
  g6 : Option (List Char)
  g7 : Option (List Char)
  g8 : Option (List Char)
deriving DecidableEq

/-- Try the `skew(x|y)?\(\s*(\-?[\d]+)(deg|rad|grad)(,\s*(\-?[\d]+)(deg|rad|grad))?`
tail of `reSkew` after the `(^|\s)` prefix `g2`. -/
def trySkewTail (g2 : List Char) (l : List Char) : Option SMatch :=
  match matchLit "skew".data l with
  | none => none
  | some r1 =>
    let tryG3 := fun (g3 : List Char) =>
      match matchLit (g3 ++ ['(']) r1 with
      | none => none
      | some r2 =>
        let ws := takeSpaces r2
        match matchNum ws.2 with
        | none => none
        | some (n1, r3) =>
          match matchUnit r3 with
          | none => none
          | some (u1, r4) =>
            let g1 := g2 ++ "skew".data ++ g3 ++ ['(']
            let base := g1 ++ ws.1 ++ n1 ++ u1
            -- the optional second-angle group
            match r4 with
            | ',' :: r5 =>
              let ws2 := takeSpaces r5
              match matchNum ws2.2 with
              | none =>
                some { m0 := base, g1 := g1, g4 := n1, g5 := u1,
                       g6 := none, g7 := none, g8 := none }
              | some (n2, r6) =>
                match matchUnit r6 with
                | none =>
                  some { m0 := base, g1 := g1, g4 := n1, g5 := u1,
                         g6 := none, g7 := none, g8 := none }
                | some (u2, _) =>
                  let g6 := ',' :: (ws2.1 ++ n2 ++ u2)
                  some { m0 := base ++ g6, g1 := g1, g4 := n1, g5 := u1,
                         g6 := some g6, g7 := some n2, g8 := some u2 }
            | _ =>
              some { m0 := base, g1 := g1, g4 := n1, g5 := u1,
                     g6 := none, g7 := none, g8 := none }
    match tryG3 ['x'] with
    | some m => some m
    | none =>
      match tryG3 ['y'] with
      | some m => some m
      | none => tryG3 []

/-- Leftmost `reSkew` match. -/
def findSkew : List Char → Bool → Option SMatch
  | l, atStart =>
    let here :=
      match (if atStart then trySkewTail [] l else none) with
      | some m => some m
      | none =>
        match l with
        | c :: cs => if jsSpace c then trySkewTail [c] cs else none
        | [] => none
    match here with
    | some m => some m
    | none =>
      match l with
      | [] => none
      | _ :: cs => findSkew cs false

/-- Is `pat` an initial segment of `s`? -/
def isPre : List Char → List Char → Bool
  | [], _ => true
  | _ :: _, [] => false
  | p :: ps, c :: cs => p = c && isPre ps cs

/-- Does `pat` occur in `s`? (`String.indexOf(pat) > -1`). -/
def containsSub (s pat : List Char) : Bool :=
  isPre pat s ||
    (match s with
     | [] => false
     | _ :: cs => containsSub cs pat)

/-- JS `String.prototype.replace` with a string pattern: replace the first
occurrence of `pat`, or return `s` unchanged when `pat` does not occur. -/
def replaceOnce (s pat repl : List Char) : List Char :=
  if isPre pat s then repl ++ s.drop pat.length
  else
    match s with
    | [] => []
    | c :: cs => c :: replaceOnce cs pat repl

/-- `parseFloat` on a `\-?[\d]+` match: its exact integer value. -/
def parseIntChars (l : List Char) : ℤ :=
  match l with
  | '-' :: rest => -(rest.foldl (fun a c => a * 10 + (c.toNat - 48)) 0 : ℕ)
  | _ => (l.foldl (fun a c => a * 10 + (c.toNat - 48)) 0 : ℕ)

/-- JS string conversion of the negated parsed number
(`'' + (-parseFloat(txt))`; note `String(-0) = "0"`). -/
def negNumText (txt : List Char) : List Char :=
  (toString (-(parseIntChars txt))).data

/-! ## The `transform` / `transformOrigin` string rewrites -/

/-- The `reTranslate` branch of the `transform` case:
`value.replace(matches[0], matches[1] + (-parseFloat(matches[4])))`. -/
def flipTranslate (v : List Char) : List Char :=
  match findTranslate v true with
  | none => v
  | some tm => replaceOnce v tm.m0 (tm.g1 ++ negNumText tm.g4)

/-- The replacement string of the `reSkew` branch, exactly as the source
evaluates it.  `+` binds tighter than `?:` in JS, so the whole concatenation
`matches[1] + (-parseFloat(matches[4])) + matches[5] + matches[6]` becomes
the ternary's condition (a non-empty string, hence truthy — a missing
`matches[6]` concatenates as `"undefined"`), and the replacement is always
`',' + (-parseFloat(matches[7])) + matches[8]`, with `"NaN"` and
`"undefined"` appearing when the second angle is absent. -/
def skewReplacement (sm : SMatch) : List Char :=
  let cond := sm.g1 ++ negNumText sm.g4 ++ sm.g5 ++
    (match sm.g6 with | some t => t | none => "undefined".data)
  if cond.isEmpty then []
  else
    ',' :: ((match sm.g7 with
             | some t => negNumText t
             | none => "NaN".data) ++
            (match sm.g8 with | some t => t | none => "undefined".data))

/-- The `reSkew` branch of the `transform` case. -/
def flipSkew (v : List Char) : List Char :=
  match findSkew v true with
  | none => v
  | some sm => replaceOnce v sm.m0 (skewReplacement sm)

/-- The full `transform` case: the translate rewrite, then the skew rewrite
on the updated value. -/
def flipTransform (s : String) : String :=
  ⟨flipSkew (flipTranslate s.data)⟩

/-- The `transformOrigin` case: first occurrence of `"right"` becomes
`"left"`, else first occurrence of `"left"` becomes `"right"`. -/
def flipTransformOrigin (s : String) : String :=
  if containsSub s.data "right".data then ⟨replaceOnce s.data "right".data "left".data⟩
  else if containsSub s.data "left".data then ⟨replaceOnce s.data "left".data "right".data⟩
  else s

/-! ## `ensureDirection` -/

/-- The `flippedAttributes` key table (an involution; other keys unchanged). -/
def flippedKey (k : String) : String :=
  if k = "right" then "left"
  else if k = "left" then "right"
  else if k = "marginRight" then "marginLeft"
  else if k = "marginLeft" then "marginRight"
  else if k = "paddingRight" then "paddingLeft"
  else if k = "paddingLeft" then "paddingRight"
  else if k = "borderRight" then "borderLeft"
  else if k = "borderLeft" then "borderRight"
  else k

/-- The `switch (attribute)` value rewrite of the RTL loop.  The source
calls string methods on the value in the `transform`/`transformOrigin`
cases, so those cases only apply to string values (a non-string value there
would throw in JS and is outside every claim's scope). -/
def flipValue (attr : String) (v : Val) : Val :=
  if attr = "float" || attr = "textAlign" then
    if v = .str "right" then .str "left"
    else if v = .str "left" then .str "right"
    else v
  else if attr = "direction" then
    if v = .str "ltr" then .str "rtl"
    else if v = .str "rtl" then .str "ltr"
    else v
  else if attr = "transform" then
    match v with
    | .str s => .str (flipTransform s)
    | .num q => .num q
  else if attr = "transformOrigin" then
    match v with
    | .str s => .str (flipTransformOrigin s)
    | .num q => .num q
  else v

/-- The RTL loop: `newStyle[key] = value` over the entries in order. -/
def rtlFlipFrom (acc : Style) : Style → Style
  | [] => acc
  | (k, v) :: rest => rtlFlipFrom (objSet acc (flippedKey k) (flipValue k v)) rest

/-- `ensureDirection`'s RTL branch builds `newStyle` from `{}`. -/
def rtlFlip (st : Style) : Style := rtlFlipFrom [] st

/-- The theme argument: the source only reads `muiTheme.isRtl` and treats a
missing theme as LTR. -/
structure MuiTheme where
  isRtl : Bool

/-- `!muiTheme || !muiTheme.isRtl` decides the early LTR return. -/
def isRtlTheme : Option MuiTheme → Bool
  | none => false
  | some t => t.isRtl

/-- `ensureDirection(muiTheme, style)`.  `dev` is
`process.env.NODE_ENV !== 'production'`.  The first component records
whether the dev-mode `warning(!style.didFlip, ...)` fired (fires when
`style.didFlip` is truthy); the second is the returned descriptor. -/
def ensureDirection (dev : Bool) (muiTheme : Option MuiTheme) (style : Style) :
    Bool × Style :=
  let warned := dev && truthy (lookupVal style "didFlip")
  let style1 := if dev then merge2 [("didFlip", Val.str "true")] style else style
  if isRtlTheme muiTheme then (warned, rtlFlip style1) else (warned, style1)

/-- The returned descriptor alone. -/
def flipStyle (dev : Bool) (muiTheme : Option MuiTheme) (style : Style) : Style :=
  (ensureDirection dev muiTheme style).2

/-- An RTL theme. -/
def rtlTheme : Option MuiTheme := some ⟨true⟩

/-- An LTR theme. -/
def ltrTheme : Option MuiTheme := some ⟨false⟩

/-! ## The Slider value/percent state

Numbers are rationals.  `Math.round` and `toFixed` round half towards
positive infinity per ECMAScript.  The `isNaN` guard on the percent
computation maps the `0/0` case to `0`, which coincides with rational
division by zero; all slider claims assume `min < max`, where JS and ℚ
arithmetic agree. -/

/-- `Math.round`: nearest integer, half towards positive infinity. -/
def jsRound (q : ℚ) : ℤ := ⌊q + 1 / 2⌋

/-- `parseFloat(x.toFixed(5))`: round to 5 decimal places, half towards
positive infinity. -/
def toFixed5 (q : ℚ) : ℚ := (jsRound (q * 100000) : ℚ) / 100000

/-- The slider's `min`, `max`, `step` props. -/
structure SliderCfg where
  min : ℚ
  max : ℚ
  step : ℚ
deriving DecidableEq

/-- The value-carrying part of the component state. -/
structure SState where
  value : ℚ
  percent : ℚ
deriving DecidableEq

/-- `alignValue(val)`: `Math.round((val - min) / step) * step + min`, then
`parseFloat(...toFixed(5))`. -/
def alignValue (c : SliderCfg) (val : ℚ) : ℚ :=
  toFixed5 ((jsRound ((val - c.min) / c.step) : ℚ) * c.step + c.min)

/-- `percentToValue(percent)`. -/
def percentToValue (c : SliderCfg) (percent : ℚ) : ℚ :=
  percent * (c.max - c.min) + c.min

/-- `componentWillMount` / `setValue(i)`: store the value as given and
`(i - min) / (max - min)` as the percent (with the `isNaN` guard). -/
def setValueState (c : SliderCfg) (i : ℚ) : SState :=
  ⟨i, (i - c.min) / (c.max - c.min)⟩

/-- `setPercent(percent)`: align the interpolated value, recompute the
percent from the aligned value, and update only when the aligned value
differs from the current one. -/
def setPercentState (c : SliderCfg) (st : SState) (percent : ℚ) : SState :=
  let value := alignValue c (percentToValue c percent)
  let alignedPercent := (value - c.min) / (c.max - c.min)
  if st.value ≠ value then ⟨value, alignedPercent⟩ else st

/-- The four keyboard actions of `onHandleKeyDown` (`page down`/`left`/
`down` decrease, `page up`/`right`/`up` increase, `home`, `end`). -/
inductive KbAction where
  | decrease
  | increase
  | toHome
  | toEnd
deriving DecidableEq

/-- The `newValue` of `onHandleKeyDown` before the `toFixed(5)` step. -/
def kbNewValue (c : SliderCfg) (v : ℚ) : KbAction → ℚ
  | .decrease => max c.min (v - c.step)
  | .increase => min c.max (v + c.step)
  | .toHome => c.min
  | .toEnd => c.max

/-- The `newPercent` of `onHandleKeyDown` (computed from the pre-rounding
`newValue` for arrows, constants for home/end). -/
def kbNewPercent (c : SliderCfg) (v : ℚ) : KbAction → ℚ
  | .decrease => (max c.min (v - c.step) - c.min) / (c.max - c.min)
  | .increase => (min c.max (v + c.step) - c.min) / (c.max - c.min)
  | .toHome => 0
  | .toEnd => 1

/-- The state after a keyboard action: updates fire only when `newValue`
differs from the current value, and store `parseFloat(newValue.toFixed(5))`
with `newPercent`. -/
def kbState (c : SliderCfg) (st : SState) (a : KbAction) : SState :=
  let nv := kbNewValue c st.value a
  if st.value ≠ nv then ⟨toFixed5 nv, kbNewPercent c st.value a⟩ else st

/-- `dragX`: clamp the pixel offset to `[0, trackWidth]` and convert to a
percent of the track. -/
def dragXPercent (trackWidth pos : ℚ) : ℚ :=
  (if pos < 0 then 0 else if pos > trackWidth then trackWidth else pos) / trackWidth

/-- A processed drag update: `dragX` feeds its percent into `setPercent`. -/
def dragXState (c : SliderCfg) (st : SState) (trackWidth pos : ℚ) : SState :=
  setPercentState c st (dragXPercent trackWidth pos)

/-- `clamp(x, 0, 1)` as used by the spec's invariant. -/
def clamp01 (q : ℚ) : ℚ := min 1 (max 0 q)

/-- The spec's slider invariant
`currentPercent == clamp((currentValue - min) / (max - min), 0, 1)`. -/
def SliderInv (c : SliderCfg) (st : SState) : Prop :=
  st.percent = clamp01 ((st.value - c.min) / (c.max - c.min))

/-- The unclamped percent/value relation that `setPercent` maintains. -/
def SliderInvU (c : SliderCfg) (st : SState) : Prop :=
  st.percent = (st.value - c.min) / (c.max - c.min)

/-- `q` is an integer multiple of `10⁻⁵` (exactly representable with 5
decimal places). -/
def IsFixed5 (q : ℚ) : Prop := ∃ n : ℤ, q = (n : ℚ) / 100000

/-! ## Document-level drag listeners

`onHandleTouchStart`/`onHandleMouseDown` register document listeners,
`dragEndHandler`/`dragTouchEndHandler` remove them.  `addEventListener`
is idempotent for the same type/handler pair, so registration is a set of
(event type, handler) pairs; the `Slider` class declares no
`componentWillUnmount`, so the unmount event is a no-op on the document's
listener set. -/

/-- The (event type, handler) pairs the Slider ever registers. -/
inductive Listener where
  | mousemoveDrag
  | mouseupDragEnd
  | touchmoveDrag
  | touchupDragEnd
  | touchendDragEnd
  | touchcancelDragEnd
deriving DecidableEq

/-- `document.addEventListener` (idempotent for an identical listener). -/
def addL (ls : List Listener) (x : Listener) : List Listener :=
  if x ∈ ls then ls else ls ++ [x]

/-- `document.removeEventListener` (no-op when absent). -/
def removeL (ls : List Listener) (x : Listener) : List Listener :=
  ls.filter (fun y => y ≠ x)

/-- The externally visible events that drive listener registration. -/
inductive SliderEvent where
  | handleMouseDown
  | handleTouchStart
  | documentMouseUp
  | documentTouchEnd
  | documentTouchCancel
  | documentTouchUp
  | unmount
deriving DecidableEq

/-- One step of the listener bookkeeping.  Mouse-down/touch-start attach
the move and end handlers; `dragEndHandler` removes the two mouse
listeners; `dragTouchEndHandler` removes the four touch listeners; the
component defines no `componentWillUnmount`, so `unmount` removes
nothing. -/
def listenersStep (ls : List Listener) : SliderEvent → List Listener
  | .handleMouseDown =>
      addL (addL ls .mousemoveDrag) .mouseupDragEnd
  | .handleTouchStart =>
      addL (addL (addL (addL ls .touchmoveDrag) .touchupDragEnd) .touchendDragEnd)
        .touchcancelDragEnd
  | .documentMouseUp =>
      removeL (removeL ls .mousemoveDrag) .mouseupDragEnd
  | .documentTouchEnd =>
      removeL (removeL (removeL (removeL ls .touchmoveDrag) .touchupDragEnd)
        .touchendDragEnd) .touchcancelDragEnd
  | .documentTouchCancel =>
      removeL (removeL (removeL (removeL ls .touchmoveDrag) .touchupDragEnd)
        .touchendDragEnd) .touchcancelDragEnd
  | .documentTouchUp =>
      removeL (removeL (removeL (removeL ls .touchmoveDrag) .touchupDragEnd)
        .touchendDragEnd) .touchcancelDragEnd
  | .unmount => ls

/-- Run a sequence of events from a listener set. -/
def listenersRun (ls : List Listener) : List SliderEvent → List Listener
  | [] => ls
  | e :: es => listenersRun (listenersStep ls e) es

/-! ## Direction-sensitivity of a style entry (for the identity claims) -/

/-- An entry that the RTL branch of `ensureDirection` rewrites: a
bidirectional pair key, a `float`/`textAlign`/`direction` key with a
swappable value, a `transform` value matched by `reTranslate` or `reSkew`,
or a `transformOrigin` value containing `right`/`left`.  A non-string value
under `transform`/`transformOrigin` counts as sensitive because the source
calls string methods on it (a JS `TypeError`). -/
def dirSensitive (k : String) (v : Val) : Bool :=
  k = "right" || k = "left" ||
  k = "marginRight" || k = "marginLeft" ||
  k = "paddingRight" || k = "paddingLeft" ||
  k = "borderRight" || k = "borderLeft" ||
  ((k = "float" || k = "textAlign") && (v = .str "right" || v = .str "left")) ||
  (k = "direction" && (v = .str "ltr" || v = .str "rtl")) ||
  (k = "transform" &&
    (match v with
     | .str s => (findTranslate s.data true).isSome || (findSkew s.data true).isSome
     | .num _ => true)) ||
  (k = "transformOrigin" &&
    (match v with
     | .str s => containsSub s.data "right".data || containsSub s.data "left".data
     | .num _ => true))

/-! ## General helper lemmas -/

theorem toFixed5_isFixed5 (q : ℚ) : IsFixed5 (toFixed5 q) :=
  ⟨jsRound (q * 100000), rfl⟩

theorem toFixed5_eq_self {q : ℚ} (h : IsFixed5 q) : toFixed5 q = q := by
  obtain ⟨n, rfl⟩ := h
  unfold toFixed5 jsRound
  have h1 : (n : ℚ) / 100000 * 100000 = (n : ℚ) := by field_simp
  rw [h1, Int.floor_int_add]
  norm_num

theorem clamp01_of_mem {q : ℚ} (h0 : 0 ≤ q) (h1 : q ≤ 1) : clamp01 q = q := by
  unfold clamp01
  rw [max_eq_right h0, min_eq_right h1]

theorem IsFixed5.add {a b : ℚ} (ha : IsFixed5 a) (hb : IsFixed5 b) :
    IsFixed5 (a + b) := by
  obtain ⟨m, rfl⟩ := ha
  obtain ⟨n, rfl⟩ := hb
  exact ⟨m + n, by push_cast; ring⟩

theorem IsFixed5.sub {a b : ℚ} (ha : IsFixed5 a) (hb : IsFixed5 b) :
    IsFixed5 (a - b) := by
  obtain ⟨m, rfl⟩ := ha
  obtain ⟨n, rfl⟩ := hb
  exact ⟨m - n, by push_cast; ring⟩

theorem IsFixed5.min {a b : ℚ} (ha : IsFixed5 a) (hb : IsFixed5 b) :
    IsFixed5 (min a b) := by
  rcases min_choice a b with h | h <;> rw [h]
  · exact ha
  · exact hb

theorem IsFixed5.max {a b : ℚ} (ha : IsFixed5 a) (hb : IsFixed5 b) :
    IsFixed5 (max a b) := by
  rcases max_choice a b with h | h <;> rw [h]
  · exact ha
  · exact hb

/-! ## Claim theorems -/

/-- C1: the claim says an RTL flip negates the first (and, when present,
second) skew angle in a `transform` value.  The code does not: because `+`
binds tighter than `?:` in the skew replacement expression, the matched
skew text is replaced by `',' + (-secondAngle) + unit` when a second angle
is present and by `",NaNundefined"` when not, destroying the function
instead of negating its angles; a capital-X `skewX(...)` is not even
matched by the case-sensitive regex.  This theorem evaluates the code at
the failing inputs. -/
theorem C1_skew_flip_at_failing_inputs :
    flipStyle false rtlTheme [("transform", Val.str "skew(10deg, 20deg)")] =
      [("transform", Val.str ",-20deg)")] ∧
    flipStyle false rtlTheme [("transform", Val.str "skew(10deg)")] =
      [("transform", Val.str ",NaNundefined)")] ∧
    flipStyle false rtlTheme [("transform", Val.str "skewX(10deg)")] =
      [("transform", Val.str "skewX(10deg)")] := by
  refine ⟨?_, ?_, ?_⟩ <;> decide

/-- C4: under an RTL theme, `{left: 5}` flips to `{right: 5}`,
`{transform: 'translateX(10px)'}` flips to
`{transform: 'translateX(-10px)'}`, and every key of the four bidirectional
pairs is relocated to its mirrored key with the value unchanged. -/
theorem C4_rtl_pairs_and_translate :
    flipStyle false rtlTheme [("left", Val.num 5)] = [("right", Val.num 5)] ∧
    flipStyle false rtlTheme [("transform", Val.str "translateX(10px)")] =
      [("transform", Val.str "translateX(-10px)")] ∧
    ∀ v : Val,
      flipStyle false rtlTheme [("right", v)] = [("left", v)] ∧
      flipStyle false rtlTheme [("left", v)] = [("right", v)] ∧
      flipStyle false rtlTheme [("marginRight", v)] = [("marginLeft", v)] ∧
      flipStyle false rtlTheme [("marginLeft", v)] = [("marginRight", v)] ∧
      flipStyle false rtlTheme [("paddingRight", v)] = [("paddingLeft", v)] ∧
      flipStyle false rtlTheme [("paddingLeft", v)] = [("paddingRight", v)] ∧
      flipStyle false rtlTheme [("borderRight", v)] = [("borderLeft", v)] ∧
      flipStyle false rtlTheme [("borderLeft", v)] = [("borderRight", v)] :=
  ⟨by decide, by decide, fun v => ⟨rfl, rfl, rfl, rfl, rfl, rfl, rfl, rfl⟩⟩

/-- C9: the claim says drag listeners are removed on every exit path and
also on unmount mid-drag.  The exit paths (mouse-up, touch-end,
touch-cancel, and the `touchup` pseudo-event) do remove every listener they
registered, but the `Slider` class declares no `componentWillUnmount`, so
unmounting mid-drag leaves the document listeners registered — the final
conjuncts evaluate the code at that failing input. -/
theorem C9_listener_cleanup_at_failing_input :
    listenersRun [] [.handleMouseDown, .documentMouseUp] = [] ∧
    listenersRun [] [.handleTouchStart, .documentTouchEnd] = [] ∧
    listenersRun [] [.handleTouchStart, .documentTouchCancel] = [] ∧
    listenersRun [] [.handleTouchStart, .documentTouchUp] = [] ∧
    listenersRun [] [.handleTouchStart, .unmount] =
      [.touchmoveDrag, .touchupDragEnd, .touchendDragEnd, .touchcancelDragEnd] ∧
    listenersRun [] [.handleTouchStart, .unmount] ≠ [] ∧
    listenersRun [] [.handleMouseDown, .unmount] ≠ [] := by
  refine ⟨?_, ?_, ?_, ?_, ?_, ?_, ?_⟩ <;> decide

/-- C10: the drag pipeline clamps the pixel offset to `[0, trackWidth]`
before alignment, but applies no clamp after `alignValue`: `setPercent`
either stores the aligned value verbatim or leaves the state unchanged,
and with `min = 0`, `max = 0.5`, `step = 0.3` a drag to percent `1`
stores `currentValue = 0.6 > max` and `currentPercent = 1.2`. -/
theorem C10_no_clamp_after_alignment :
    (∀ c st p, (setPercentState c st p).value = alignValue c (percentToValue c p) ∨
      setPercentState c st p = st) ∧
    dragXPercent 100 150 = 1 ∧ dragXPercent 100 (-50) = 0 ∧
    dragXState ⟨0, 1/2, 3/10⟩ ⟨0, 0⟩ 100 150 = ⟨3/5, 6/5⟩ ∧
    (3/5 : ℚ) > (⟨0, 1/2, 3/10⟩ : SliderCfg).max := by
  refine ⟨?_, ?_, ?_, ?_, ?_⟩
  · intro c st p
    unfold setPercentState
    by_cases h : st.value ≠ alignValue c (percentToValue c p)
    · simp [h]
    · simp [h]
  · unfold dragXPercent; norm_num
  · unfold dragXPercent; norm_num
  · unfold dragXState setPercentState dragXPercent alignValue percentToValue toFixed5 jsRound
    norm_num
  · norm_num

/-- C2: the claim says keyboard arrow / page updates use the drag path's
step alignment (`Math.round((v - min) / step) * step + min`) before the
5-decimal rounding.  They do not: with `min = 0`, `max = 1`, `step = 0.4`
and current value `0.5`, an increase stores `0.9`, while the claimed
align-then-clamp computation yields `0.8`. -/
theorem C2_keyboard_not_aligned_cex :
    (kbState ⟨0, 1, 2/5⟩ ⟨1/2, 1/2⟩ .increase).value = 9/10 ∧
    max (0:ℚ) (min 1 (alignValue ⟨0, 1, 2/5⟩ (1/2 + 2/5))) = 4/5 ∧
    (9/10 : ℚ) ≠ 4/5 := by
  refine ⟨?_, ?_, by norm_num⟩
  · unfold kbState kbNewValue kbNewPercent toFixed5 jsRound
    norm_num
  · unfold alignValue toFixed5 jsRound
    norm_num

/-- C2 (amended): for `min ≤ v ≤ max` and `step > 0`, a keyboard
increase (when `v < max`) or decrease (when `v > min`) stores the old
value plus/minus `step`, clamped to `[min, max]`, rounded to 5 decimal
places — with no alignment to step multiples; the stored percent is
computed from the pre-rounding value. -/
theorem C2_keyboard_clamp_round_amended (c : SliderCfg) (v p : ℚ)
    (hmin : c.min ≤ v) (hmax : v ≤ c.max) (hstep : 0 < c.step) :
    (v < c.max →
      kbState c ⟨v, p⟩ .increase =
        ⟨toFixed5 (max c.min (min c.max (v + c.step))),
         (min c.max (v + c.step) - c.min) / (c.max - c.min)⟩) ∧
    (c.min < v →
      kbState c ⟨v, p⟩ .decrease =
        ⟨toFixed5 (max c.min (min c.max (v - c.step))),
         (max c.min (v - c.step) - c.min) / (c.max - c.min)⟩) := by
  constructor
  · intro hlt
    have hv : v < min c.max (v + c.step) := lt_min hlt (by linarith)
    have hge : c.min ≤ min c.max (v + c.step) := le_min (hmin.trans hmax) (by linarith)
    rw [max_eq_right hge]
    simp [kbState, kbNewValue, kbNewPercent, hv.ne]
  · intro hgt
    have hv : max c.min (v - c.step) < v := max_lt hgt (by linarith)
    have hle : v - c.step ≤ c.max := by linarith
    rw [min_eq_right hle]
    simp [kbState, kbNewValue, kbNewPercent, hv.ne.symm]

/-- Witness for C2 (amended): a concrete keyboard increase with
`min = 0`, `max = 1`, `step = 0.1` from value `0.5` stores `0.6`. -/
theorem C2_keyboard_clamp_round_amended_witness :
    kbState ⟨0, 1, 1/10⟩ ⟨1/2, 1/2⟩ .increase = ⟨3/5, 3/5⟩ := by
  have h := (C2_keyboard_clamp_round_amended ⟨0, 1, 1/10⟩ (1/2) (1/2)
    (by norm_num) (by norm_num) (by norm_num)).1 (by norm_num)
  rw [h]
  simp only [SState.mk.injEq]
  unfold toFixed5 jsRound
  norm_num

/-- C3: the claim says `home` always stores exactly `min`.  It does not:
the stored value passes through `parseFloat(newValue.toFixed(5))`, so with
`min = 0.000001` a `home` press stores `0`, not `min`. -/
theorem C3_home_not_exact_cex :
    (kbState ⟨1/1000000, 1, 1/100⟩ ⟨1/2, 1/2⟩ .toHome).value ≠
      (⟨1/1000000, 1, 1/100⟩ : SliderCfg).min := by
  unfold kbState kbNewValue kbNewPercent toFixed5 jsRound
  norm_num

/-- C3 (amended): when the current value differs from `min`, `home` sets
the percent to exactly `0` and the value to `min` rounded to 5 decimal
places — exactly `min` whenever `min` is an integer multiple of `10⁻⁵`;
when the current value already equals `min`, the state is unchanged
(so the percent is not forced to `0`); symmetrically `end` with `max` and
percent `1`.  Step alignment is bypassed in both cases. -/
theorem C3_home_end_amended (c : SliderCfg) (st : SState) :
    (st.value ≠ c.min → kbState c st .toHome = ⟨toFixed5 c.min, 0⟩) ∧
    (st.value = c.min → kbState c st .toHome = st) ∧
    (st.value ≠ c.max → kbState c st .toEnd = ⟨toFixed5 c.max, 1⟩) ∧
    (st.value = c.max → kbState c st .toEnd = st) ∧
    (IsFixed5 c.min → toFixed5 c.min = c.min) ∧
    (IsFixed5 c.max → toFixed5 c.max = c.max) := by
  refine ⟨?_, ?_, ?_, ?_, fun h => toFixed5_eq_self h, fun h => toFixed5_eq_self h⟩
  · intro h; simp [kbState, kbNewValue, kbNewPercent, h]
  · intro h; simp [kbState, kbNewValue, h]
  · intro h; simp [kbState, kbNewValue, kbNewPercent, h]
  · intro h; simp [kbState, kbNewValue, h]

/-- Witness for C3 (amended): with `min = 0` (a 5-decimal multiple) and
current value `0.5`, `home` stores exactly `⟨0, 0⟩`. -/
theorem C3_home_end_amended_witness :
    kbState ⟨0, 1, 1/100⟩ ⟨1/2, 1/2⟩ .toHome = ⟨0, 0⟩ := by
  have h := (C3_home_end_amended ⟨0, 1, 1/100⟩ ⟨1/2, 1/2⟩).1 (by norm_num)
  rw [h]
  simp only [SState.mk.injEq]
  unfold toFixed5 jsRound
  norm_num

/-- C8: a keyboard increase from `0.01` with `step = 0.06` stores exactly
`0.07`; every drag-path value passes through `alignValue`, whose result is
always an integer multiple of `10⁻⁵`, and every keyboard update that fires
stores `parseFloat(newValue.toFixed(5))`, likewise a multiple of `10⁻⁵`. -/
theorem C8_five_decimal_rounding :
    (kbState ⟨0, 1, 6/100⟩ ⟨1/100, 1/100⟩ .increase).value = 7/100 ∧
    (∀ c x, IsFixed5 (alignValue c x)) ∧
    (∀ c st a, st.value ≠ kbNewValue c st.value a →
      (kbState c st a).value = toFixed5 (kbNewValue c st.value a) ∧
      IsFixed5 ((kbState c st a).value)) := by
  refine ⟨?_, fun c x => toFixed5_isFixed5 _, ?_⟩
  · unfold kbState kbNewValue kbNewPercent toFixed5 jsRound
    norm_num
  · intro c st a h
    have hst : kbState c st a =
        ⟨toFixed5 (kbNewValue c st.value a), kbNewPercent c st.value a⟩ := by
      simp [kbState, h]
    rw [hst]
    exact ⟨rfl, toFixed5_isFixed5 _⟩

/-- Witness for C8: the `0.01 + 0.06` keyboard increase fires and its
stored value is the 5-decimal rounding of the computed value. -/
theorem C8_five_decimal_rounding_witness :
    (kbState ⟨0, 1, 6/100⟩ ⟨1/100, 1/100⟩ .increase).value =
      toFixed5 (kbNewValue ⟨0, 1, 6/100⟩ (1/100) .increase) ∧
    IsFixed5 ((kbState ⟨0, 1, 6/100⟩ ⟨1/100, 1/100⟩ .increase).value) := by
  have hne : ((⟨1/100, 1/100⟩ : SState)).value ≠
      kbNewValue ⟨0, 1, 6/100⟩ ((⟨1/100, 1/100⟩ : SState)).value .increase := by
    unfold kbNewValue; norm_num
  exact C8_five_decimal_rounding.2.2 ⟨0, 1, 6/100⟩ ⟨1/100, 1/100⟩ .increase hne

theorem clamp01_div_of_mem (c : SliderCfg) (x : ℚ) (hlt : c.min < c.max)
    (h0 : c.min ≤ x) (h1 : x ≤ c.max) :
    clamp01 ((x - c.min) / (c.max - c.min)) = (x - c.min) / (c.max - c.min) :=
  clamp01_of_mem (div_nonneg (by linarith) (by linarith))
    ((div_le_one (by linarith)).mpr (by linarith))

/-- C5: the claim says
`currentPercent = clamp((currentValue - min)/(max - min), 0, 1)` after
every non-interpolating update.  `setPercent` violates it: from the
invariant-satisfying state `⟨0, 0⟩` with `min = 0`, `max = 1`,
`step = 0.4`, a drag to percent `1` (in `[0, 1]`) stores value `1.2` and
percent `1.2`, while the clamped expression evaluates to `1`. -/
theorem C5_invariant_cex :
    SliderInv ⟨0, 1, 2/5⟩ ⟨0, 0⟩ ∧
    setPercentState ⟨0, 1, 2/5⟩ ⟨0, 0⟩ 1 = ⟨6/5, 6/5⟩ ∧
    ¬ SliderInv ⟨0, 1, 2/5⟩ (setPercentState ⟨0, 1, 2/5⟩ ⟨0, 0⟩ 1) := by
  refine ⟨?_, ?_, ?_⟩
  · unfold SliderInv clamp01; norm_num
  · unfold setPercentState alignValue percentToValue toFixed5 jsRound; norm_num
  · unfold SliderInv clamp01 setPercentState alignValue percentToValue toFixed5 jsRound
    norm_num

/-- C5 (amended): the clamped invariant holds after mount/`setValue` with
`min < max` and an in-range value; `setPercent` preserves only the
unclamped relation `percent = (value - min)/(max - min)` (whose value can
leave `[0, 1]` when alignment overshoots the range); keyboard updates
preserve the clamped invariant when `min`, `max`, `step` and the current
value are integer multiples of `10⁻⁵` (so the `toFixed(5)` step is the
identity), `step ≥ 0`, and the current value is in range. -/
theorem C5_invariant_amended :
    (∀ c v, c.min < c.max → c.min ≤ v → v ≤ c.max →
      SliderInv c (setValueState c v)) ∧
    (∀ c st p, SliderInvU c st → SliderInvU c (setPercentState c st p)) ∧
    (∀ c st a, c.min < c.max → 0 ≤ c.step →
      c.min ≤ st.value → st.value ≤ c.max →
      IsFixed5 c.min → IsFixed5 c.max → IsFixed5 c.step → IsFixed5 st.value →
      SliderInv c st → SliderInv c (kbState c st a)) := by
  refine ⟨?_, ?_, ?_⟩
  · intro c v hlt h0 h1
    unfold SliderInv setValueState
    exact (clamp01_div_of_mem c v hlt h0 h1).symm
  · intro c st p h
    simp only [setPercentState]
    split_ifs with hc
    · unfold SliderInvU
      rfl
    · exact h
  · intro c st a hlt hstep h0 h1 f5min f5max f5step f5v hInv
    by_cases hc : st.value ≠ kbNewValue c st.value a
    · have hst : kbState c st a =
          ⟨toFixed5 (kbNewValue c st.value a), kbNewPercent c st.value a⟩ := by
        simp [kbState, hc]
      rw [hst]
      cases a with
      | decrease =>
        have f5 : IsFixed5 (max c.min (st.value - c.step)) :=
          IsFixed5.max f5min (f5v.sub f5step)
        have hb0 : c.min ≤ max c.min (st.value - c.step) := le_max_left _ _
        have hb1 : max c.min (st.value - c.step) ≤ c.max :=
          max_le hlt.le (by linarith)
        unfold SliderInv
        simp only [kbNewValue, kbNewPercent]
        rw [toFixed5_eq_self f5, clamp01_div_of_mem c _ hlt hb0 hb1]
      | increase =>
        have f5 : IsFixed5 (min c.max (st.value + c.step)) :=
          IsFixed5.min f5max (f5v.add f5step)
        have hb0 : c.min ≤ min c.max (st.value + c.step) :=
          le_min hlt.le (by linarith)
        have hb1 : min c.max (st.value + c.step) ≤ c.max := min_le_left _ _
        unfold SliderInv
        simp only [kbNewValue, kbNewPercent]
        rw [toFixed5_eq_self f5, clamp01_div_of_mem c _ hlt hb0 hb1]
      | toHome =>
        unfold SliderInv
        simp only [kbNewValue, kbNewPercent]
        rw [toFixed5_eq_self f5min]
        simp [clamp01]
      | toEnd =>
        unfold SliderInv
        simp only [kbNewValue, kbNewPercent]
        rw [toFixed5_eq_self f5max, div_self (by linarith : c.max - c.min ≠ 0)]
        norm_num [clamp01]
    · have hst : kbState c st a = st := by simp [kbState, hc]
      rw [hst]; exact hInv

/-- Witness for C5 (amended): the three preserved forms at a concrete
configuration `min = 0`, `max = 1`, `step = 0.01`. -/
theorem C5_invariant_amended_witness :
    SliderInv ⟨0, 1, 1/100⟩ (setValueState ⟨0, 1, 1/100⟩ (1/4)) ∧
    SliderInvU ⟨0, 1, 1/100⟩ (setPercentState ⟨0, 1, 1/100⟩ ⟨0, 0⟩ (1/3)) ∧
    SliderInv ⟨0, 1, 1/100⟩ (kbState ⟨0, 1, 1/100⟩ ⟨1/2, 1/2⟩ .increase) := by
  refine ⟨C5_invariant_amended.1 ⟨0, 1, 1/100⟩ (1/4) (by norm_num) (by norm_num) (by norm_num),
    C5_invariant_amended.2.1 ⟨0, 1, 1/100⟩ ⟨0, 0⟩ (1/3) (by unfold SliderInvU; norm_num),
    C5_invariant_amended.2.2 ⟨0, 1, 1/100⟩ ⟨1/2, 1/2⟩ .increase (by norm_num) (by norm_num)
      (by norm_num) (by norm_num) ⟨0, by norm_num⟩ ⟨100000, by norm_num⟩
      ⟨1000, by norm_num⟩ ⟨50000, by norm_num⟩
      (by unfold SliderInv clamp01; norm_num)⟩

theorem lookupVal_cons {ka k : String} {va : Val} {rest : Style} :
    lookupVal ((ka, va) :: rest) k = if ka = k then some va else lookupVal rest k := rfl

theorem objSet_cons {k1 ka : String} (v1 va : Val) (acc : Style) :
    objSet ((k1, v1) :: acc) ka va =
      if k1 = ka then (ka, va) :: acc else (k1, v1) :: objSet acc ka va := rfl

theorem lookupVal_objSet_ne {st : Style} {k1 : String} (v1 : Val) {k : String}
    (h : k1 ≠ k) : lookupVal (objSet st k1 v1) k = lookupVal st k := by
  induction st with
  | nil => simp [objSet, lookupVal, h]
  | cons a rest ih =>
    obtain ⟨ka, va⟩ := a
    rw [objSet_cons]
    by_cases hk : ka = k1
    · rw [if_pos hk, lookupVal_cons, lookupVal_cons, if_neg h, if_neg (hk ▸ h)]
    · rw [if_neg hk, lookupVal_cons, lookupVal_cons]
      by_cases hk2 : ka = k
      · rw [if_pos hk2, if_pos hk2]
      · rw [if_neg hk2, if_neg hk2, ih]

theorem lookupVal_none_keys {st : Style} {k : String}
    (h : lookupVal st k = none) : ∀ p ∈ st, p.1 ≠ k := by
  induction st with
  | nil => intro p hp; cases hp
  | cons a rest ih =>
    obtain ⟨ka, va⟩ := a
    rw [lookupVal_cons] at h
    by_cases hk : ka = k
    · rw [if_pos hk] at h; cases h
    · rw [if_neg hk] at h
      intro p hp
      rcases List.mem_cons.mp hp with hp | hp
      · rw [hp]; exact hk
      · exact ih h p hp

theorem lookupVal_mergeInto_ne {rest : Style} : ∀ (acc : Style) (k : String),
    (∀ p ∈ rest, p.1 ≠ k) →
    lookupVal (mergeInto acc rest) k = lookupVal acc k := by
  induction rest with
  | nil => intro acc k _; rfl
  | cons a rest' ih =>
    intro acc k hne
    obtain ⟨ka, va⟩ := a
    show lookupVal (mergeInto (objSet acc ka va) rest') k = lookupVal acc k
    rw [ih _ k (fun p hp => hne p (List.mem_cons_of_mem _ hp))]
    exact lookupVal_objSet_ne va (hne (ka, va) (List.mem_cons_self _ _))

theorem mem_objSet {st : Style} {k1 : String} {v1 : Val} {p : String × Val}
    (h : p ∈ objSet st k1 v1) : p = (k1, v1) ∨ p ∈ st := by
  induction st with
  | nil =>
    simp [objSet] at h
    left; exact h
  | cons a rest ih =>
    obtain ⟨ka, va⟩ := a
    rw [objSet_cons] at h
    by_cases hk : ka = k1
    · rw [if_pos hk] at h
      rcases List.mem_cons.mp h with h | h
      · left; rw [h]
      · right; exact List.mem_cons_of_mem _ h
    · rw [if_neg hk] at h
      rcases List.mem_cons.mp h with h | h
      · right; rw [h]; exact List.mem_cons_self _ _
      · rcases ih h with h2 | h2
        · left; exact h2
        · right; exact List.mem_cons_of_mem _ h2

theorem mergeInto_keys_ne {rest : Style} : ∀ (acc : Style) (k : String),
    (∀ p ∈ acc, p.1 ≠ k) → (∀ p ∈ rest, p.1 ≠ k) →
    ∀ p ∈ mergeInto acc rest, p.1 ≠ k := by
  induction rest with
  | nil => intro acc k ha _ p hp; exact ha p hp
  | cons a rest' ih =>
    intro acc k ha hr p hp
    obtain ⟨ka, va⟩ := a
    refine ih (objSet acc ka va) k ?_ (fun q hq => hr q (List.mem_cons_of_mem _ hq)) p hp
    intro q hq
    rcases mem_objSet hq with h2 | h2
    · rw [h2]; exact hr (ka, va) (List.mem_cons_self _ _)
    · exact ha q h2

theorem mergeInto_cons_ne {rest : Style} : ∀ (acc : Style) (k : String) (v : Val),
    (∀ p ∈ rest, p.1 ≠ k) →
    mergeInto ((k, v) :: acc) rest = (k, v) :: mergeInto acc rest := by
  induction rest with
  | nil => intro acc k v _; rfl
  | cons a rest' ih =>
    intro acc k v hne
    obtain ⟨ka, va⟩ := a
    show mergeInto (objSet ((k, v) :: acc) ka va) rest' = (k, v) :: mergeInto (objSet acc ka va) rest'
    rw [objSet_cons, if_neg fun he => (hne (ka, va) (List.mem_cons_self _ _)) he.symm]
    exact ih _ k v (fun p hp => hne p (List.mem_cons_of_mem _ hp))

theorem objSet_append {st : Style} {k : String} (v : Val)
    (h : ∀ p ∈ st, p.1 ≠ k) : objSet st k v = st ++ [(k, v)] := by
  induction st with
  | nil => rfl
  | cons a rest ih =>
    obtain ⟨ka, va⟩ := a
    rw [objSet_cons, if_neg (h (ka, va) (List.mem_cons_self _ _))]
    rw [ih (fun p hp => h p (List.mem_cons_of_mem _ hp))]
    rfl

theorem flippedKey_ne_didFlip {k : String} (h : k ≠ "didFlip") :
    flippedKey k ≠ "didFlip" := by
  unfold flippedKey
  split_ifs <;> first | decide | exact h

theorem rtlFlipFrom_lookup_didFlip {rest : Style} : ∀ (acc : Style),
    (∀ p ∈ rest, p.1 ≠ "didFlip") →
    lookupVal (rtlFlipFrom acc rest) "didFlip" = lookupVal acc "didFlip" := by
  induction rest with
  | nil => intro acc _; rfl
  | cons a rest' ih =>
    intro acc hne
    obtain ⟨ka, va⟩ := a
    show lookupVal (rtlFlipFrom (objSet acc (flippedKey ka) (flipValue ka va)) rest') "didFlip" =
      lookupVal acc "didFlip"
    rw [ih _ (fun p hp => hne p (List.mem_cons_of_mem _ hp))]
    exact lookupVal_objSet_ne _
      (flippedKey_ne_didFlip (hne (ka, va) (List.mem_cons_self _ _)))

theorem mergeInto_append {rest : Style} : ∀ (acc : Style),
    (∀ p ∈ rest, ∀ q ∈ acc, p.1 ≠ q.1) → (rest.map Prod.fst).Nodup →
    mergeInto acc rest = acc ++ rest := by
  induction rest with
  | nil => intro acc _ _; simp [mergeInto]
  | cons a rest' ih =>
    intro acc hdis hnod
    obtain ⟨ka, va⟩ := a
    show mergeInto (objSet acc ka va) rest' = acc ++ (ka, va) :: rest'
    have hka : ∀ p ∈ acc, p.1 ≠ ka := fun p hp he =>
      (hdis (ka, va) (List.mem_cons_self _ _) p hp) he.symm
    rw [objSet_append va hka]
    rw [List.map_cons, List.nodup_cons] at hnod
    rw [ih _ ?_ hnod.2]
    · simp
    · intro p hp q hq
      rcases List.mem_append.mp hq with hq | hq
      · exact hdis p (List.mem_cons_of_mem _ hp) q hq
      · simp at hq
        rw [hq]
        intro he
        exact hnod.1 (he ▸ List.mem_map_of_mem Prod.fst hp)

theorem rtlFlipFrom_fixed {rest : Style} : ∀ (acc : Style),
    (∀ p ∈ rest, flippedKey p.1 = p.1 ∧ flipValue p.1 p.2 = p.2) →
    (∀ p ∈ rest, ∀ q ∈ acc, p.1 ≠ q.1) → (rest.map Prod.fst).Nodup →
    rtlFlipFrom acc rest = acc ++ rest := by
  induction rest with
  | nil => intro acc _ _ _; simp [rtlFlipFrom]
  | cons a rest' ih =>
    intro acc hfix hdis hnod
    obtain ⟨ka, va⟩ := a
    show rtlFlipFrom (objSet acc (flippedKey ka) (flipValue ka va)) rest' = acc ++ (ka, va) :: rest'
    obtain ⟨hk, hv⟩ := hfix (ka, va) (List.mem_cons_self _ _)
    rw [hk, hv]
    have hka : ∀ p ∈ acc, p.1 ≠ ka := fun p hp he =>
      (hdis (ka, va) (List.mem_cons_self _ _) p hp) he.symm
    rw [objSet_append va hka]
    rw [List.map_cons, List.nodup_cons] at hnod
    rw [ih _ (fun p hp => hfix p (List.mem_cons_of_mem _ hp)) ?_ hnod.2]
    · simp
    · intro p hp q hq
      rcases List.mem_append.mp hq with hq | hq
      · exact hdis p (List.mem_cons_of_mem _ hp) q hq
      · simp at hq
        rw [hq]
        intro he
        exact hnod.1 (he ▸ List.mem_map_of_mem Prod.fst hp)

theorem flipTransform_of_none {s : String} (h1 : findTranslate s.data true = none)
    (h2 : findSkew s.data true = none) : flipTransform s = s := by
  unfold flipTransform flipTranslate flipSkew
  rw [h1, h2]

theorem flipTransformOrigin_of_not_contains {s : String}
    (h1 : containsSub s.data "right".data = false)
    (h2 : containsSub s.data "left".data = false) : flipTransformOrigin s = s := by
  unfold flipTransformOrigin
  simp [h1, h2]

theorem entry_fixed {k : String} {v : Val} (h : dirSensitive k v = false) :
    flippedKey k = k ∧ flipValue k v = v := by
  constructor
  · unfold flippedKey
    split_ifs with g1 g2 g3 g4 g5 g6 g7 g8
    · subst g1; simp [dirSensitive] at h
    · subst g2; simp [dirSensitive] at h
    · subst g3; simp [dirSensitive] at h
    · subst g4; simp [dirSensitive] at h
    · subst g5; simp [dirSensitive] at h
    · subst g6; simp [dirSensitive] at h
    · subst g7; simp [dirSensitive] at h
    · subst g8; simp [dirSensitive] at h
    · rfl
  · unfold flipValue
    split_ifs with g1 g2 g3 g4 g5 g6 g7
    · subst g2; simp [dirSensitive, g1] at h
    · subst g3; simp [dirSensitive, g1] at h
    · rfl
    · subst g5; simp [dirSensitive, g4] at h
    · subst g6; simp [dirSensitive, g4] at h
    · rfl
    · subst g7
      cases v with
      | num q => simp [dirSensitive] at h
      | str s =>
        simp [dirSensitive] at h
        show Val.str (flipTransform s) = Val.str s
        rw [flipTransform_of_none h.1 h.2]
    · rename_i g8
      subst g8
      cases v with
      | num q => simp [dirSensitive] at h
      | str s =>
        simp [dirSensitive] at h
        show Val.str (flipTransformOrigin s) = Val.str s
        rw [flipTransformOrigin_of_not_contains h.1 h.2]
    · rfl

/-- C6: in development mode, `ensureDirection` tags its output with the
`didFlip` marker; calling it again on a descriptor it already returned does
not crash (the embedding is a total function whose second flip is given
explicitly), fires the duplicate-flip warning — detected by reading the
marker back on entry — and continues with the flipped-again result; the
final conjunct evaluates a full double flip of `{left: 5}`. -/
theorem C6_double_flip_warning (style : Style) (h : lookupVal style "didFlip" = none) :
    (ensureDirection true rtlTheme style).1 = false ∧
    lookupVal (ensureDirection true rtlTheme style).2 "didFlip" = some (Val.str "true") ∧
    (ensureDirection true rtlTheme (ensureDirection true rtlTheme style).2).1 = true ∧
    (ensureDirection true rtlTheme (ensureDirection true rtlTheme style).2).2 =
      rtlFlip (merge2 [("didFlip", Val.str "true")] (ensureDirection true rtlTheme style).2) ∧
    flipStyle true rtlTheme (flipStyle true rtlTheme [("left", Val.num 5)]) =
      [("didFlip", Val.str "true"), ("left", Val.num 5)] := by
  have hkeys : ∀ p ∈ style, p.1 ≠ "didFlip" := lookupVal_none_keys h
  have h2 : lookupVal (ensureDirection true rtlTheme style).2 "didFlip" =
      some (Val.str "true") := by
    show lookupVal (rtlFlip (mergeInto [("didFlip", Val.str "true")] style)) "didFlip" = _
    rw [mergeInto_cons_ne [] "didFlip" (Val.str "true") hkeys]
    have hmk : ∀ p ∈ mergeInto ([] : Style) style, p.1 ≠ "didFlip" :=
      mergeInto_keys_ne [] "didFlip" (by intro p hp; cases hp) hkeys
    show lookupVal (rtlFlipFrom (objSet [] (flippedKey "didFlip")
      (flipValue "didFlip" (Val.str "true"))) (mergeInto [] style)) "didFlip" = _
    rw [rtlFlipFrom_lookup_didFlip _ hmk]
    rfl
  refine ⟨?_, h2, ?_, rfl, by decide⟩
  · show (true && truthy (lookupVal style "didFlip")) = false
    rw [h]
    rfl
  · show (true && truthy (lookupVal (ensureDirection true rtlTheme style).2 "didFlip")) = true
    rw [h2]
    rfl

/-- Witness for C6: the double-flip warning behaviour at the concrete
style `{top: 3}`. -/
theorem C6_double_flip_warning_witness :
    (ensureDirection true rtlTheme [("top", Val.num 3)]).1 = false ∧
    (ensureDirection true rtlTheme (ensureDirection true rtlTheme [("top", Val.num 3)]).2).1 =
      true := by
  have h := C6_double_flip_warning [("top", Val.num 3)] (by decide)
  exact ⟨h.1, h.2.2.1⟩

/-- C7: a style descriptor with no direction-sensitive entries (and no
keys with duplicate or `didFlip` names, which a JS object cannot have) is
returned structurally unchanged by `ensureDirection` under an absent
theme, an LTR theme, and an RTL theme — and in development mode the only
difference is the prepended `didFlip` tag. -/
theorem C7_direction_agnostic (style : Style)
    (hnod : (style.map Prod.fst).Nodup)
    (hs : ∀ p ∈ style, dirSensitive p.1 p.2 = false)
    (hd : ∀ p ∈ style, p.1 ≠ "didFlip") :
    flipStyle false none style = style ∧
    flipStyle false ltrTheme style = style ∧
    flipStyle false rtlTheme style = style ∧
    flipStyle true rtlTheme style = ("didFlip", Val.str "true") :: style := by
  have hfix : ∀ p ∈ style, flippedKey p.1 = p.1 ∧ flipValue p.1 p.2 = p.2 :=
    fun p hp => entry_fixed (hs p hp)
  refine ⟨rfl, rfl, ?_, ?_⟩
  · show rtlFlipFrom [] style = style
    rw [rtlFlipFrom_fixed [] hfix (by intro p hp q hq; cases hq) hnod]
    rfl
  · show rtlFlip (mergeInto [("didFlip", Val.str "true")] style) = _
    rw [mergeInto_cons_ne [] "didFlip" (Val.str "true") hd]
    rw [mergeInto_append [] (by intro p hp q hq; cases hq) hnod]
    show rtlFlipFrom (objSet [] (flippedKey "didFlip")
      (flipValue "didFlip" (Val.str "true"))) ([] ++ style) =
      ("didFlip", Val.str "true") :: style
    have hobj : objSet ([] : Style) (flippedKey "didFlip")
        (flipValue "didFlip" (Val.str "true")) = [("didFlip", Val.str "true")] := rfl
    rw [hobj, List.nil_append]
    rw [rtlFlipFrom_fixed [("didFlip", Val.str "true")] hfix ?_ hnod]
    · rfl
    · intro p hp q hq
      simp at hq
      rw [hq]
      exact hd p hp

/-- Witness for C7: the identity at the concrete direction-agnostic
style `{color: 'red', top: 3}`. -/
theorem C7_direction_agnostic_witness :
    flipStyle false rtlTheme [("color", Val.str "red"), ("top", Val.num 3)] =
      [("color", Val.str "red"), ("top", Val.num 3)] ∧
    flipStyle true rtlTheme [("color", Val.str "red"), ("top", Val.num 3)] =
      [("didFlip", Val.str "true"), ("color", Val.str "red"), ("top", Val.num 3)] := by
  have h := C7_direction_agnostic [("color", Val.str "red"), ("top", Val.num 3)]
    (by decide) (by decide) (by decide)
  exact ⟨h.2.2.1, h.2.2.2⟩
